import Mathlib

/-!
# Verification of the payments-engine transaction state machine

A shallow embedding of the repository sources:
  * `src/model.rs`   — data model (`ClientState`, `BalanceTransfer`, `Txn`, …)
  * `src/db.rs`      — the SQLite-backed ledger store (`TxnDb`), modelled as
                       lists of rows with the table constraints of the
                       `CREATE TABLE` statements (PRIMARY KEY / UNIQUE /
                       FOREIGN KEY) checked at insert time, exactly as the
                       store's own unit tests exercise them
  * `src/transaction_processor.rs` — validation and the per-record state machine
  * `src/bin/payments_engine.rs`   — the process exit-code logic of `main`

Monetary amounts are `f64` in the source; they are modelled as `ℚ`, the
exact counterpart of the "signed decimal-equivalent" numeric type of the
design, so that the algebraic claims of the spec are about the intended
arithmetic of the state machine.
-/

/- Rational arithmetic must evaluate on concrete inputs for the scenario
theorems below; the batteries definitions are irreducible by default. -/
attribute [local semireducible] Rat.add Rat.sub Rat.mul Rat.inv

/-! ## Data model (`src/model.rs`) -/

/-- `type ClientId = u16` (the 16-bit range plays no role in the claims). -/
abbrev ClientId := Nat

/-- `type TransactionId = u32`. -/
abbrev TransactionId := Nat

/-- `enum LockedState { Invalid, Locked, Unlocked }`. -/
inductive LockedState
  | Invalid
  | Locked
  | Unlocked
deriving DecidableEq

/-- `struct ClientState` — one account row of the `Clients` table. -/
structure ClientState where
  client_id : ClientId
  available : ℚ
  held : ℚ
  total : ℚ
  locked : LockedState
deriving DecidableEq

/-- `ClientState::init` — a fresh account: all balances zero, unlocked. -/
def ClientState.init (client_id : ClientId) : ClientState :=
  { client_id := client_id, available := 0, held := 0, total := 0,
    locked := LockedState.Unlocked }

/-- `ClientState::is_locked` — `Locked` and `Invalid` both count as locked. -/
def ClientState.is_locked (s : ClientState) : Bool :=
  match s.locked with
  | LockedState.Locked => true
  | LockedState.Invalid => true
  | LockedState.Unlocked => false

/-- `struct BalanceTransfer` — positive amount for a deposit, negative for a
withdrawal. -/
structure BalanceTransfer where
  client_id : ClientId
  txn_id : TransactionId
  amount : ℚ
deriving DecidableEq

/-- `enum TxnType`. -/
inductive TxnType
  | Invalid
  | Deposit
  | Withdrawal
  | Dispute
  | Resolve
  | Chargeback
deriving DecidableEq

/-- `struct RawTxnInput` — the deserialized CSV record. -/
structure RawTxnInput where
  txn_type : TxnType
  client_id : ClientId
  txn_id : TransactionId
  amount : Option ℚ
deriving DecidableEq

/-- `enum Txn` — the validated command. -/
inductive Txn
  | BalanceTransfer (transfer : BalanceTransfer)
  | Dispute (client_id : ClientId) (txn_id : TransactionId)
  | Resolve (client_id : ClientId) (txn_id : TransactionId)
  | Chargeback (client_id : ClientId) (txn_id : TransactionId)
deriving DecidableEq

/-- `enum DisputeStatus`. -/
inductive DisputeStatus
  | Invalid
  | Open
  | Resolved
  | Chargeback
deriving DecidableEq

deriving instance DecidableEq for Except

/-- `enum MyError` (`src/errors.rs`). -/
inductive MyError
  | Conversion (s : String)
  | Db
  | FileReader
  | Generic (s : String)
  | GenericFmt (s : String)
deriving DecidableEq

/-! ## The ledger store (`src/db.rs`)

The four SQL tables are modelled as lists of rows.  Every `try_*` operation
mirrors the corresponding `INSERT`, returning `false` (and leaving the store
unchanged) exactly when the insert would violate one of the declared
constraints:

  * `BalanceTransfers`: `txn_id` UNIQUE over the whole table,
    FOREIGN KEY `client_id` → `Clients`;
  * `Disputes`: PRIMARY KEY `(client_id, txn_id)`,
    FOREIGN KEY `(client_id, txn_id)` → `BalanceTransfers`;
  * `Resolutions`: PRIMARY KEY `(client_id, txn_id)`,
    FOREIGN KEY `(client_id, txn_id)` → `Disputes`.
-/

/-- `struct TxnDb` — the four tables created in `TxnDb::new`. -/
structure TxnDb where
  clients : List ClientState
  transfers : List BalanceTransfer
  disputes : List (ClientId × TransactionId)
  resolutions : List (ClientId × TransactionId × DisputeStatus)
deriving DecidableEq

/-- The store as created by `TxnDb::new`: four empty tables. -/
def TxnDb.new : TxnDb :=
  { clients := [], transfers := [], disputes := [], resolutions := [] }

/-- `TxnDb::get_client_state` — `SELECT * FROM Clients WHERE client_id=?`. -/
def TxnDb.get_client_state (db : TxnDb) (client_id : ClientId) :
    Option ClientState :=
  db.clients.find? (fun s => s.client_id == client_id)

/-- `TxnDb::create_client_state` — inserts `ClientState::init client_id` into
`Clients` and returns it (called only when `get_client_state` returned
`None`). -/
def TxnDb.create_client_state (db : TxnDb) (client_id : ClientId) :
    ClientState × TxnDb :=
  (ClientState.init client_id,
    { db with clients := db.clients ++ [ClientState.init client_id] })

/-- `TxnDb::update_client_state` — `UPDATE Clients SET … WHERE client_id=?`:
overwrites every row whose key matches. -/
def TxnDb.update_client_state (db : TxnDb) (s : ClientState) : TxnDb :=
  { db with clients :=
      db.clients.map (fun x => if x.client_id == s.client_id then s else x) }

/-- `TxnDb::try_insert_balance_transfer` — the insert fails (returning
`false`, store unchanged) iff the `txn_id` is already present in the table
(UNIQUE, regardless of client) or the client row does not exist (FK). -/
def TxnDb.try_insert_balance_transfer (db : TxnDb) (txn : BalanceTransfer) :
    Bool × TxnDb :=
  if db.transfers.any (fun bt => bt.txn_id == txn.txn_id)
      || !(db.clients.any (fun s => s.client_id == txn.client_id)) then
    (false, db)
  else
    (true, { db with transfers := db.transfers ++ [txn] })

/-- `TxnDb.try_insert_dispute` — fails iff a dispute for `(client_id, txn_id)`
already exists (PK) or no such balance transfer exists (FK). -/
def TxnDb.try_insert_dispute (db : TxnDb) (client_id : ClientId)
    (txn_id : TransactionId) : Bool × TxnDb :=
  if db.disputes.any (fun d => d.1 == client_id && d.2 == txn_id)
      || !(db.transfers.any
            (fun bt => bt.client_id == client_id && bt.txn_id == txn_id)) then
    (false, db)
  else
    (true, { db with disputes := db.disputes ++ [(client_id, txn_id)] })

/-- Common body of `try_resolve_dispute` / `try_chargeback_dispute`: an
`INSERT INTO Resolutions` that fails iff a resolution for the pair already
exists (PK) or no dispute for the pair exists (FK). -/
def TxnDb.try_insert_resolution (db : TxnDb) (client_id : ClientId)
    (txn_id : TransactionId) (status : DisputeStatus) : Bool × TxnDb :=
  if db.resolutions.any (fun r => r.1 == client_id && r.2.1 == txn_id)
      || !(db.disputes.any (fun d => d.1 == client_id && d.2 == txn_id)) then
    (false, db)
  else
    (true, { db with resolutions :=
        db.resolutions ++ [(client_id, txn_id, status)] })

/-- `TxnDb::try_resolve_dispute`. -/
def TxnDb.try_resolve_dispute (db : TxnDb) (client_id : ClientId)
    (txn_id : TransactionId) : Bool × TxnDb :=
  db.try_insert_resolution client_id txn_id DisputeStatus.Resolved

/-- `TxnDb::try_chargeback_dispute`. -/
def TxnDb.try_chargeback_dispute (db : TxnDb) (client_id : ClientId)
    (txn_id : TransactionId) : Bool × TxnDb :=
  db.try_insert_resolution client_id txn_id DisputeStatus.Chargeback

/-- `TxnDb::get_balance_transfer` — `SELECT * FROM BalanceTransfers WHERE
client_id=? AND txn_id=?`. -/
def TxnDb.get_balance_transfer (db : TxnDb) (client_id : ClientId)
    (txn_id : TransactionId) : Option BalanceTransfer :=
  db.transfers.find? (fun bt => bt.client_id == client_id && bt.txn_id == txn_id)

/-! ## Validation (`TransactionProcessor::validate_raw_input`) -/

/-- `TransactionProcessor::validate_raw_input` — pure; `None` means the
record is silently dropped.  A withdrawal's amount is negated. -/
def validate_raw_input (txn : RawTxnInput) : Option Txn :=
  match txn.txn_type with
  | TxnType.Invalid => none
  | TxnType.Deposit =>
    let amount := txn.amount.getD (-1)
    if amount ≤ 0 then none
    else some (Txn.BalanceTransfer
      { client_id := txn.client_id, txn_id := txn.txn_id, amount := amount })
  | TxnType.Withdrawal =>
    let amount := txn.amount.getD (-1)
    if amount ≤ 0 then none
    else some (Txn.BalanceTransfer
      { client_id := txn.client_id, txn_id := txn.txn_id, amount := -amount })
  | TxnType.Dispute =>
    if txn.amount.isSome then none
    else some (Txn.Dispute txn.client_id txn.txn_id)
  | TxnType.Resolve =>
    if txn.amount.isSome then none
    else some (Txn.Resolve txn.client_id txn.txn_id)
  | TxnType.Chargeback =>
    if txn.amount.isSome then none
    else some (Txn.Chargeback txn.client_id txn.txn_id)

/-! ## The state machine (`TransactionProcessor::process`) -/

/-- `struct TransactionProcessor` (`num_processed` is the test-support
counter of the source). -/
structure TransactionProcessor where
  db : TxnDb
  num_processed : Nat
deriving DecidableEq

/-- `TransactionProcessor::new` — fresh store, zero counter. -/
def TransactionProcessor.new : TransactionProcessor :=
  { db := TxnDb.new, num_processed := 0 }

/-- The balance adjustment applied when a dispute was recorded
(`process`, lines 79–87): a disputed withdrawal only grows `held`;
a disputed deposit moves the amount from `available` into `held`. -/
def dispute_adjust (s : ClientState) (bt : BalanceTransfer) : ClientState :=
  if bt.amount < 0 then
    { s with held := s.held - bt.amount }
  else
    { s with held := s.held + bt.amount, available := s.available - bt.amount }

/-- The balance adjustment applied when a dispute was resolved
(`process`, lines 106–114): exactly undoes `dispute_adjust`. -/
def resolve_adjust (s : ClientState) (bt : BalanceTransfer) : ClientState :=
  if bt.amount < 0 then
    { s with held := s.held + bt.amount }
  else
    { s with held := s.held - bt.amount, available := s.available + bt.amount }

/-- The balance adjustment applied when a dispute was charged back
(`process`, lines 133–143), including the unconditional lock. -/
def chargeback_adjust (s : ClientState) (bt : BalanceTransfer) : ClientState :=
  if bt.amount < 0 then
    { s with held := s.held + bt.amount, available := s.available - bt.amount,
             locked := LockedState.Locked }
  else
    { s with held := s.held - bt.amount, locked := LockedState.Locked }

def dispute_fetch_err_msg : String :=
  "inserted dispute but get_balance_transfer returned None"

def resolve_fetch_err_msg : String :=
  "resolved dispute but get_balance_transfer returned None"

def chargeback_fetch_err_msg : String :=
  "charged back dispute but get_balance_transfer returned None"

/-- `process`, dispute branch, after `try_insert_dispute` succeeded: the
`match` on the result of `get_balance_transfer` — `None` is the fatal
`bail!` of lines 72–77, `Some` applies the balance adjustment. -/
def after_dispute_insert (s : ClientState) (fetched : Option BalanceTransfer) :
    Except MyError ClientState :=
  match fetched with
  | none => Except.error (MyError.GenericFmt dispute_fetch_err_msg)
  | some bt => Except.ok (dispute_adjust s bt)

/-- `process`, resolve branch, after `try_resolve_dispute` succeeded
(lines 99–104). -/
def after_resolve_insert (s : ClientState) (fetched : Option BalanceTransfer) :
    Except MyError ClientState :=
  match fetched with
  | none => Except.error (MyError.GenericFmt resolve_fetch_err_msg)
  | some bt => Except.ok (resolve_adjust s bt)

/-- `process`, chargeback branch, after `try_chargeback_dispute` succeeded
(lines 126–131). -/
def after_chargeback_insert (s : ClientState)
    (fetched : Option BalanceTransfer) : Except MyError ClientState :=
  match fetched with
  | none => Except.error (MyError.GenericFmt chargeback_fetch_err_msg)
  | some bt => Except.ok (chargeback_adjust s bt)

/-- `process`, lines 149–150: recompute `total = available + held` and
persist via `update_client_state`. -/
def finish_update (db : TxnDb) (s : ClientState) (np : Nat) :
    TransactionProcessor :=
  { db := db.update_client_state { s with total := s.available + s.held },
    num_processed := np }

/-- The body of `TransactionProcessor::process` after validation and account
lookup/creation: `state` is the current account, `db` the store (already
holding the account row), `np` the counter. -/
def process_validated (db : TxnDb) (state : ClientState) (np : Nat)
    (txn : Txn) : Except MyError TransactionProcessor :=
  if state.is_locked then
    Except.ok { db := db, num_processed := np }
  else
    match txn with
    | Txn.BalanceTransfer transfer =>
      if transfer.amount < 0 ∧ state.available + transfer.amount < 0 then
        Except.ok { db := db, num_processed := np }
      else
        if (db.try_insert_balance_transfer transfer).1 then
          Except.ok (finish_update (db.try_insert_balance_transfer transfer).2
            { state with available := state.available + transfer.amount }
            (np + 1))
        else
          Except.ok (finish_update (db.try_insert_balance_transfer transfer).2
            state np)
    | Txn.Dispute client_id txn_id =>
      if (db.try_insert_dispute client_id txn_id).1 then
        match after_dispute_insert state
            ((db.try_insert_dispute client_id txn_id).2.get_balance_transfer
              client_id txn_id) with
        | Except.error e => Except.error e
        | Except.ok s2 =>
          Except.ok
            (finish_update (db.try_insert_dispute client_id txn_id).2 s2
              (np + 1))
      else
        Except.ok
          (finish_update (db.try_insert_dispute client_id txn_id).2 state np)
    | Txn.Resolve client_id txn_id =>
      if (db.try_resolve_dispute client_id txn_id).1 then
        match after_resolve_insert state
            ((db.try_resolve_dispute client_id txn_id).2.get_balance_transfer
              client_id txn_id) with
        | Except.error e => Except.error e
        | Except.ok s2 =>
          Except.ok
            (finish_update (db.try_resolve_dispute client_id txn_id).2 s2
              (np + 1))
      else
        Except.ok
          (finish_update (db.try_resolve_dispute client_id txn_id).2 state np)
    | Txn.Chargeback client_id txn_id =>
      if (db.try_chargeback_dispute client_id txn_id).1 then
        match after_chargeback_insert state
            ((db.try_chargeback_dispute client_id
                txn_id).2.get_balance_transfer client_id txn_id) with
        | Except.error e => Except.error e
        | Except.ok s2 =>
          Except.ok
            (finish_update (db.try_chargeback_dispute client_id txn_id).2 s2
              (np + 1))
      else
        Except.ok
          (finish_update (db.try_chargeback_dispute client_id txn_id).2 state
            np)

/-- `TransactionProcessor::process`: validate (drop invalid records), load or
create the account, ignore everything on a locked account, then run the
state machine. -/
def TransactionProcessor.process (p : TransactionProcessor)
    (raw : RawTxnInput) : Except MyError TransactionProcessor :=
  match validate_raw_input raw with
  | none => Except.ok p
  | some txn =>
    match p.db.get_client_state raw.client_id with
    | some s => process_validated p.db s p.num_processed txn
    | none =>
      let created := p.db.create_client_state raw.client_id
      process_validated created.2 created.1 p.num_processed txn

/-- Processing a whole input sequence, record by record, stopping at the
first fatal error (the `?` on `processor.process(txn)` in the drivers). -/
def TransactionProcessor.process_all (p : TransactionProcessor) :
    List RawTxnInput → Except MyError TransactionProcessor
  | [] => Except.ok p
  | raw :: rest =>
    match p.process raw with
    | Except.error e => Except.error e
    | Except.ok p2 => p2.process_all rest

/-! ## Input record builders (concrete test inputs) -/

def depositRaw (c : ClientId) (t : TransactionId) (a : ℚ) : RawTxnInput :=
  { txn_type := TxnType.Deposit, client_id := c, txn_id := t, amount := some a }

def withdrawalRaw (c : ClientId) (t : TransactionId) (a : ℚ) : RawTxnInput :=
  { txn_type := TxnType.Withdrawal, client_id := c, txn_id := t,
    amount := some a }

def disputeRaw (c : ClientId) (t : TransactionId) : RawTxnInput :=
  { txn_type := TxnType.Dispute, client_id := c, txn_id := t, amount := none }

def resolveRaw (c : ClientId) (t : TransactionId) : RawTxnInput :=
  { txn_type := TxnType.Resolve, client_id := c, txn_id := t, amount := none }

def chargebackRaw (c : ClientId) (t : TransactionId) : RawTxnInput :=
  { txn_type := TxnType.Chargeback, client_id := c, txn_id := t,
    amount := none }

/-! ## The process exit code (`src/bin/payments_engine.rs`, `fn main`) -/

/-- Models `fn main`: `1` stands for `ExitCode::FAILURE`, `0` for
`ExitCode::SUCCESS`.  The four argument/path checks return `FAILURE`; after
them, a failing `process_transactions` only has its report printed — `main`
then falls through to `ExitCode::SUCCESS` (lines 41–45). -/
def main_exit_code (arg_count : Nat) (path_exists is_file open_ok : Bool)
    (process_result : Except MyError Unit) : Nat :=
  if arg_count ≠ 2 then 1
  else if !path_exists then 1
  else if !is_file then 1
  else if !open_ok then 1
  else
    match process_result with
    | Except.error _ => 0
    | Except.ok _ => 0

/-! ## Derived notions used by the verified properties -/

/-- §8 invariant of the spec: every persisted account row satisfies
`total = available + held`. -/
def InvTotal (db : TxnDb) : Prop :=
  ∀ s ∈ db.clients, s.total = s.available + s.held

/-- Referential consistency of the store: every `Disputes` row is backed by
a `BalanceTransfers` row, as the FOREIGN KEY of the `Disputes` table
enforces. -/
def DisputesBacked (db : TxnDb) : Prop :=
  ∀ d ∈ db.disputes,
    ∃ bt ∈ db.transfers, bt.client_id = d.1 ∧ bt.txn_id = d.2

/-- Run a whole input sequence from a fresh engine and look up one client's
final account row (`none` when the run aborted fatally or the client was
never created). -/
def run_client_state (raws : List RawTxnInput) (c : ClientId) :
    Option ClientState :=
  match TransactionProcessor.new.process_all raws with
  | Except.error _ => none
  | Except.ok q => q.db.get_client_state c

/-- Deposit an amount, withdraw it, dispute the deposit, charge the deposit
back: the input that drives the account negative. -/
def negInputs : List RawTxnInput :=
  [depositRaw 1 1 1, withdrawalRaw 1 2 1, disputeRaw 1 1, chargebackRaw 1 1]

/-- The engine state after processing `deposit(c1, t1, 1.0)` from scratch. -/
def sampleP1 : TransactionProcessor :=
  { db :=
      { clients :=
          [{ client_id := 1, available := 1, held := 0, total := 1,
             locked := LockedState.Unlocked }],
        transfers := [{ client_id := 1, txn_id := 1, amount := 1 }],
        disputes := [], resolutions := [] },
    num_processed := 1 }

/-- The engine state after `deposit(c1,t10,1.0)`, `withdrawal(c1,t11,1.0)`,
`dispute(c1,t11)` from scratch: the withdrawal is under open dispute. -/
def sampleDisputedW : TransactionProcessor :=
  { db :=
      { clients :=
          [{ client_id := 1, available := 0, held := 1, total := 1,
             locked := LockedState.Unlocked }],
        transfers :=
          [{ client_id := 1, txn_id := 10, amount := 1 },
           { client_id := 1, txn_id := 11, amount := -1 }],
        disputes := [(1, 11)], resolutions := [] },
    num_processed := 3 }

/-- A store holding one locked account. -/
def sampleLockedP : TransactionProcessor :=
  { db :=
      { clients :=
          [{ client_id := 1, available := 0, held := 0, total := 0,
             locked := LockedState.Locked }],
        transfers := [], disputes := [], resolutions := [] },
    num_processed := 0 }

/-! ## Small facts about the store operations -/

theorem dispute_adjust_client_id (s : ClientState) (bt : BalanceTransfer) :
    (dispute_adjust s bt).client_id = s.client_id := by
  by_cases h : bt.amount < 0 <;> simp [dispute_adjust, h]

theorem dispute_adjust_locked (s : ClientState) (bt : BalanceTransfer) :
    (dispute_adjust s bt).locked = s.locked := by
  by_cases h : bt.amount < 0 <;> simp [dispute_adjust, h]

theorem resolve_adjust_client_id (s : ClientState) (bt : BalanceTransfer) :
    (resolve_adjust s bt).client_id = s.client_id := by
  by_cases h : bt.amount < 0 <;> simp [resolve_adjust, h]

theorem resolve_adjust_locked (s : ClientState) (bt : BalanceTransfer) :
    (resolve_adjust s bt).locked = s.locked := by
  by_cases h : bt.amount < 0 <;> simp [resolve_adjust, h]

theorem chargeback_adjust_client_id (s : ClientState) (bt : BalanceTransfer) :
    (chargeback_adjust s bt).client_id = s.client_id := by
  by_cases h : bt.amount < 0 <;> simp [chargeback_adjust, h]

theorem try_insert_balance_transfer_clients (db : TxnDb) (t : BalanceTransfer) :
    (db.try_insert_balance_transfer t).2.clients = db.clients := by
  unfold TxnDb.try_insert_balance_transfer
  split <;> rfl

theorem try_insert_dispute_clients (db : TxnDb) (c : ClientId)
    (t : TransactionId) :
    (db.try_insert_dispute c t).2.clients = db.clients := by
  unfold TxnDb.try_insert_dispute
  split <;> rfl

theorem try_insert_resolution_clients (db : TxnDb) (c : ClientId)
    (t : TransactionId) (st : DisputeStatus) :
    (db.try_insert_resolution c t st).2.clients = db.clients := by
  unfold TxnDb.try_insert_resolution
  split <;> rfl

theorem try_insert_dispute_transfers (db : TxnDb) (c : ClientId)
    (t : TransactionId) :
    (db.try_insert_dispute c t).2.transfers = db.transfers := by
  unfold TxnDb.try_insert_dispute
  split <;> rfl

theorem try_insert_resolution_transfers (db : TxnDb) (c : ClientId)
    (t : TransactionId) (st : DisputeStatus) :
    (db.try_insert_resolution c t st).2.transfers = db.transfers := by
  unfold TxnDb.try_insert_resolution
  split <;> rfl

theorem try_insert_resolution_disputes (db : TxnDb) (c : ClientId)
    (t : TransactionId) (st : DisputeStatus) :
    (db.try_insert_resolution c t st).2.disputes = db.disputes := by
  unfold TxnDb.try_insert_resolution
  split <;> rfl

theorem get_client_state_clients (db1 db2 : TxnDb) (c : ClientId)
    (h : db1.clients = db2.clients) :
    db1.get_client_state c = db2.get_client_state c := by
  unfold TxnDb.get_client_state
  rw [h]

theorem get_balance_transfer_transfers (db1 db2 : TxnDb) (c : ClientId)
    (t : TransactionId) (h : db1.transfers = db2.transfers) :
    db1.get_balance_transfer c t = db2.get_balance_transfer c t := by
  unfold TxnDb.get_balance_transfer
  rw [h]

/-- A found account row carries the looked-up key. -/
theorem get_client_state_key (db : TxnDb) (c : ClientId) (s : ClientState)
    (h : db.get_client_state c = some s) : s.client_id = c := by
  have hp := List.find?_some h
  simpa using hp

/-- The row-level effect of `update_client_state` on a later lookup. -/
theorem find?_map_update (l : List ClientState) (w : ClientState)
    (c : ClientId) (h : w.client_id ≠ c) :
    (l.map (fun x => if x.client_id == w.client_id then w else x)).find?
        (fun s => s.client_id == c) =
      l.find? (fun s => s.client_id == c) := by
  induction l with
  | nil => rfl
  | cons x xs ih =>
    by_cases hx : x.client_id = w.client_id
    · have hrep : (if x.client_id == w.client_id then w else x) = w := by
        simp [hx]
      simp only [List.map_cons, hrep]
      rw [List.find?_cons_of_neg _ (by simp [h]),
          List.find?_cons_of_neg _ (by simp [hx, h])]
      exact ih
    · have hrep : (if x.client_id == w.client_id then w else x) = x := by
        simp [hx]
      simp only [List.map_cons, hrep]
      by_cases hxc : x.client_id = c
      · rw [List.find?_cons_of_pos _ (by simp [hxc]),
            List.find?_cons_of_pos _ (by simp [hxc])]
      · rw [List.find?_cons_of_neg _ (by simp [hxc]),
            List.find?_cons_of_neg _ (by simp [hxc])]
        exact ih

/-- `update_client_state` leaves accounts with a different key untouched. -/
theorem get_client_state_update_ne (db : TxnDb) (w : ClientState)
    (c : ClientId) (h : w.client_id ≠ c) :
    (db.update_client_state w).get_client_state c = db.get_client_state c :=
  find?_map_update db.clients w c h

/-- The row-level effect of `update_client_state` on the updated key. -/
theorem find?_map_update_self (l : List ClientState) (w : ClientState)
    (c : ClientId) (hw : w.client_id = c)
    (hs : (l.find? (fun s => s.client_id == c)).isSome) :
    (l.map (fun x => if x.client_id == w.client_id then w else x)).find?
        (fun s => s.client_id == c) = some w := by
  induction l with
  | nil => simp at hs
  | cons x xs ih =>
    by_cases hxc : x.client_id = c
    · have hrep : (if x.client_id == w.client_id then w else x) = w := by
        simp [hxc, hw]
      simp only [List.map_cons, hrep]
      rw [List.find?_cons_of_pos _ (by simp [hw])]
    · have hrep : (if x.client_id == w.client_id then w else x) = x := by
        simp [hxc, hw]
      simp only [List.map_cons, hrep]
      rw [List.find?_cons_of_neg _ (by simp [hxc])]
      rw [List.find?_cons_of_neg _ (by simp [hxc])] at hs
      exact ih hs

/-- If the account `c` exists, `update_client_state` with a row keyed `c`
makes the lookup return exactly that row. -/
theorem get_client_state_update_eq (db : TxnDb) (w : ClientState)
    (c : ClientId) (hw : w.client_id = c)
    (hs : (db.get_client_state c).isSome) :
    (db.update_client_state w).get_client_state c = some w :=
  find?_map_update_self db.clients w c hw hs

/-- `create_client_state` installs a fresh zeroed account. -/
theorem get_client_state_create_self (db : TxnDb) (c : ClientId) :
    (db.create_client_state c).2.get_client_state c =
      ((db.get_client_state c).or (some (ClientState.init c))) := by
  unfold TxnDb.create_client_state TxnDb.get_client_state
  rw [List.find?_append]
  simp [ClientState.init]

/-- `create_client_state` does not affect other accounts. -/
theorem get_client_state_create_ne (db : TxnDb) (c c2 : ClientId)
    (h : c2 ≠ c) :
    (db.create_client_state c).2.get_client_state c2 =
      db.get_client_state c2 := by
  unfold TxnDb.create_client_state TxnDb.get_client_state
  rw [List.find?_append]
  have hone : ([ClientState.init c].find? (fun s => s.client_id == c2)) = none := by
    simp [ClientState.init]
    exact Ne.symm h
  rw [hone, Option.or_none]

/-- `finish_update` only rewrites the row keyed by the state it persists. -/
theorem finish_update_get_ne (db : TxnDb) (st : ClientState) (np : Nat)
    (c : ClientId) (hne : st.client_id ≠ c) :
    (finish_update db st np).db.get_client_state c = db.get_client_state c := by
  unfold finish_update
  exact get_client_state_update_ne db _ c hne

/-- `finish_update` persists the state with its recomputed `total`. -/
theorem finish_update_get_eq (db : TxnDb) (st : ClientState) (np : Nat)
    (c : ClientId) (hw : st.client_id = c)
    (hs : (db.get_client_state c).isSome) :
    (finish_update db st np).db.get_client_state c =
      some { st with total := st.available + st.held } := by
  unfold finish_update
  exact get_client_state_update_eq db _ c hw hs


/-- A successful `after_dispute_insert` means the fetch found the transfer
and the dispute adjustment was applied. -/
theorem after_dispute_insert_ok (s : ClientState)
    (f : Option BalanceTransfer) (s2 : ClientState)
    (h : after_dispute_insert s f = Except.ok s2) :
    ∃ bt, f = some bt ∧ s2 = dispute_adjust s bt := by
  cases f with
  | none => simp [after_dispute_insert] at h
  | some bt =>
    simp only [after_dispute_insert, Except.ok.injEq] at h
    exact ⟨bt, rfl, h.symm⟩

/-- A successful `after_resolve_insert` means the fetch found the transfer
and the resolve adjustment was applied. -/
theorem after_resolve_insert_ok (s : ClientState)
    (f : Option BalanceTransfer) (s2 : ClientState)
    (h : after_resolve_insert s f = Except.ok s2) :
    ∃ bt, f = some bt ∧ s2 = resolve_adjust s bt := by
  cases f with
  | none => simp [after_resolve_insert] at h
  | some bt =>
    simp only [after_resolve_insert, Except.ok.injEq] at h
    exact ⟨bt, rfl, h.symm⟩

/-- A successful `after_chargeback_insert` means the fetch found the
transfer and the chargeback adjustment was applied. -/
theorem after_chargeback_insert_ok (s : ClientState)
    (f : Option BalanceTransfer) (s2 : ClientState)
    (h : after_chargeback_insert s f = Except.ok s2) :
    ∃ bt, f = some bt ∧ s2 = chargeback_adjust s bt := by
  cases f with
  | none => simp [after_chargeback_insert] at h
  | some bt =>
    simp only [after_chargeback_insert, Except.ok.injEq] at h
    exact ⟨bt, rfl, h.symm⟩

/-- Exhaustive shape of a successful `process_validated` result: either one
of the silent early returns (store and counter handed back unchanged), or a
`finish_update` of a state keyed like the input account against a store
with the same `Clients` table as the input store. -/
theorem process_validated_cases (db : TxnDb) (s : ClientState) (np : Nat)
    (txn : Txn) (p2 : TransactionProcessor)
    (h : process_validated db s np txn = Except.ok p2) :
    p2 = { db := db, num_processed := np } ∨
      ∃ db2 st np2, db2.clients = db.clients ∧ st.client_id = s.client_id ∧
        p2 = finish_update db2 st np2 := by
  unfold process_validated at h
  split at h
  · simp only [Except.ok.injEq] at h
    exact Or.inl h.symm
  · split at h
    · rename_i tr
      split at h
      · simp only [Except.ok.injEq] at h
        exact Or.inl h.symm
      · split at h
        · simp only [Except.ok.injEq] at h
          exact Or.inr ⟨_, { s with available := s.available + tr.amount }, _,
            try_insert_balance_transfer_clients db tr, rfl, h.symm⟩
        · simp only [Except.ok.injEq] at h
          exact Or.inr ⟨_, _, _, try_insert_balance_transfer_clients db tr,
            rfl, h.symm⟩
    · rename_i c0 t0
      split at h
      · split at h
        · exact absurd h (by simp)
        · rename_i s2 heq
          simp only [Except.ok.injEq] at h
          obtain ⟨bt, hf, hs2⟩ := after_dispute_insert_ok s _ s2 heq
          exact Or.inr ⟨_, _, _, try_insert_dispute_clients db c0 t0,
            by rw [hs2, dispute_adjust_client_id], h.symm⟩
      · simp only [Except.ok.injEq] at h
        exact Or.inr ⟨_, _, _, try_insert_dispute_clients db c0 t0, rfl,
          h.symm⟩
    · rename_i c0 t0
      split at h
      · split at h
        · exact absurd h (by simp)
        · rename_i s2 heq
          simp only [Except.ok.injEq] at h
          obtain ⟨bt, hf, hs2⟩ := after_resolve_insert_ok s _ s2 heq
          exact Or.inr ⟨_, _, _, try_insert_resolution_clients db c0 t0 _,
            by rw [hs2, resolve_adjust_client_id], h.symm⟩
      · simp only [Except.ok.injEq] at h
        exact Or.inr ⟨_, _, _, try_insert_resolution_clients db c0 t0 _, rfl,
          h.symm⟩
    · rename_i c0 t0
      split at h
      · split at h
        · exact absurd h (by simp)
        · rename_i s2 heq
          simp only [Except.ok.injEq] at h
          obtain ⟨bt, hf, hs2⟩ := after_chargeback_insert_ok s _ s2 heq
          exact Or.inr ⟨_, _, _, try_insert_resolution_clients db c0 t0 _,
            by rw [hs2, chargeback_adjust_client_id], h.symm⟩
      · simp only [Except.ok.injEq] at h
        exact Or.inr ⟨_, _, _, try_insert_resolution_clients db c0 t0 _, rfl,
          h.symm⟩

/-- `InvTotal` only depends on the `Clients` table. -/
theorem InvTotal_clients_eq (db1 db2 : TxnDb) (h : db1.clients = db2.clients)
    (hdb : InvTotal db2) : InvTotal db1 := by
  unfold InvTotal at *
  rw [h]
  exact hdb

/-- The recompute-then-persist epilogue (`total = available + held`,
`update_client_state`) keeps every account row consistent. -/
theorem InvTotal_finish_update (db : TxnDb) (st : ClientState) (np : Nat)
    (hdb : InvTotal db) : InvTotal (finish_update db st np).db := by
  intro x hx
  unfold finish_update TxnDb.update_client_state at hx
  simp only [List.mem_map] at hx
  obtain ⟨y, hy, hxy⟩ := hx
  split at hxy
  · rw [← hxy]
  · rw [← hxy]
    exact hdb y hy

/-- A freshly created account row is consistent. -/
theorem InvTotal_create (db : TxnDb) (c : ClientId) (hdb : InvTotal db) :
    InvTotal (db.create_client_state c).2 := by
  intro x hx
  unfold TxnDb.create_client_state at hx
  simp only [List.mem_append, List.mem_singleton] at hx
  rcases hx with hx | hx
  · exact hdb x hx
  · rw [hx]
    simp [ClientState.init]

/-- One `process` step keeps every account row consistent. -/
theorem InvTotal_process_step (p : TransactionProcessor) (raw : RawTxnInput)
    (p2 : TransactionProcessor) (hdb : InvTotal p.db)
    (h : p.process raw = Except.ok p2) : InvTotal p2.db := by
  unfold TransactionProcessor.process at h
  cases hv : validate_raw_input raw with
  | none =>
    rw [hv] at h
    simp only [Except.ok.injEq] at h
    rw [← h]
    exact hdb
  | some txn =>
    rw [hv] at h
    cases hg : p.db.get_client_state raw.client_id with
    | some s =>
      rw [hg] at h
      rcases process_validated_cases _ _ _ _ _ h with h1 | ⟨db2, st, np2, hcl, _, h2⟩
      · rw [h1]
        exact hdb
      · rw [h2]
        exact InvTotal_finish_update _ _ _ (InvTotal_clients_eq _ _ hcl hdb)
    | none =>
      rw [hg] at h
      rcases process_validated_cases _ _ _ _ _ h with h1 | ⟨db2, st, np2, hcl, _, h2⟩
      · rw [h1]
        exact InvTotal_create _ _ hdb
      · rw [h2]
        refine InvTotal_finish_update _ _ _ (InvTotal_clients_eq _ _ hcl ?_)
        exact InvTotal_create _ _ hdb

/-- The state machine never touches the row of a differently-keyed client. -/
theorem process_validated_get_ne (db : TxnDb) (s : ClientState) (np : Nat)
    (txn : Txn) (p2 : TransactionProcessor) (c : ClientId)
    (hne : s.client_id ≠ c)
    (h : process_validated db s np txn = Except.ok p2) :
    p2.db.get_client_state c = db.get_client_state c := by
  rcases process_validated_cases _ _ _ _ _ h with h1 | ⟨db2, st, np2, hcl, hid, h2⟩
  · rw [h1]
  · rw [h2]
    rw [finish_update_get_ne _ _ _ _ (by rw [hid]; exact hne)]
    exact get_client_state_clients _ _ _ hcl

/-- A whole `process` step leaves the rows of all other clients unchanged. -/
theorem process_get_ne (p : TransactionProcessor) (raw : RawTxnInput)
    (p2 : TransactionProcessor) (c : ClientId) (hne : raw.client_id ≠ c)
    (h : p.process raw = Except.ok p2) :
    p2.db.get_client_state c = p.db.get_client_state c := by
  unfold TransactionProcessor.process at h
  cases hv : validate_raw_input raw with
  | none =>
    rw [hv] at h
    simp only [Except.ok.injEq] at h
    rw [← h]
  | some txn =>
    rw [hv] at h
    cases hg : p.db.get_client_state raw.client_id with
    | some s =>
      rw [hg] at h
      have hs : s.client_id = raw.client_id := get_client_state_key _ _ _ hg
      exact process_validated_get_ne _ _ _ _ _ _ (by rw [hs]; exact hne) h
    | none =>
      rw [hg] at h
      have hstep := process_validated_get_ne _ _ _ _ _ c
        (show (ClientState.init raw.client_id).client_id ≠ c from hne) h
      rw [hstep]
      exact get_client_state_create_ne _ _ _ (Ne.symm hne)

/-- Step form of the freeze property: a locked account's row survives any
single processed record completely unchanged. -/
theorem process_locked_step (p : TransactionProcessor) (raw : RawTxnInput)
    (p2 : TransactionProcessor) (c : ClientId) (s : ClientState)
    (hget : p.db.get_client_state c = some s) (hl : s.is_locked = true)
    (h : p.process raw = Except.ok p2) :
    p2.db.get_client_state c = some s := by
  by_cases hc : raw.client_id = c
  · subst hc
    unfold TransactionProcessor.process at h
    cases hv : validate_raw_input raw with
    | none =>
      simp only [hv, Except.ok.injEq] at h
      rw [← h]
      exact hget
    | some txn =>
      simp only [hv, hget] at h
      unfold process_validated at h
      rw [if_pos hl] at h
      simp only [Except.ok.injEq] at h
      rw [← h]
      exact hget
  · rw [process_get_ne p raw p2 c hc h]
    exact hget

/-- Sequence form of the freeze property, by induction over the input. -/
theorem process_all_locked (p : TransactionProcessor)
    (raws : List RawTxnInput) (p2 : TransactionProcessor) (c : ClientId)
    (s : ClientState) (hget : p.db.get_client_state c = some s)
    (hl : s.is_locked = true) (h : p.process_all raws = Except.ok p2) :
    p2.db.get_client_state c = some s := by
  induction raws generalizing p with
  | nil =>
    unfold TransactionProcessor.process_all at h
    simp only [Except.ok.injEq] at h
    rw [← h]
    exact hget
  | cons raw rest ih =>
    unfold TransactionProcessor.process_all at h
    cases hstep : p.process raw with
    | error e =>
      rw [hstep] at h
      simp at h
    | ok pmid =>
      rw [hstep] at h
      exact ih pmid (process_locked_step p raw pmid c s hget hl hstep) h

/-- Sequence form of invariant preservation. -/
theorem InvTotal_process_all (p : TransactionProcessor)
    (raws : List RawTxnInput) (p2 : TransactionProcessor)
    (hdb : InvTotal p.db) (h : p.process_all raws = Except.ok p2) :
    InvTotal p2.db := by
  induction raws generalizing p with
  | nil =>
    unfold TransactionProcessor.process_all at h
    simp only [Except.ok.injEq] at h
    rw [← h]
    exact hdb
  | cons raw rest ih =>
    unfold TransactionProcessor.process_all at h
    cases hstep : p.process raw with
    | error e =>
      rw [hstep] at h
      simp at h
    | ok pmid =>
      rw [hstep] at h
      exact ih pmid (InvTotal_process_step p raw pmid hdb hstep) h

/-- Processing a concatenated input is processing the two parts in turn. -/
theorem process_all_append (p : TransactionProcessor)
    (l1 l2 : List RawTxnInput) :
    p.process_all (l1 ++ l2) =
      match p.process_all l1 with
      | Except.error e => Except.error e
      | Except.ok q => q.process_all l2 := by
  induction l1 generalizing p with
  | nil => rfl
  | cons raw rest ih =>
    show TransactionProcessor.process_all p (raw :: (rest ++ l2)) = _
    simp only [TransactionProcessor.process_all]
    cases hstep : p.process raw with
    | error e => simp only [hstep]
    | ok pmid =>
      simp only [hstep]
      exact ih pmid

/-- A found account row is a member of the `Clients` table. -/
theorem get_client_state_mem (db : TxnDb) (c : ClientId) (s : ClientState)
    (h : db.get_client_state c = some s) : s ∈ db.clients :=
  List.mem_of_find?_eq_some h

/-- C1: for every input record sequence processed from a fresh engine and
every client account present at the end, the account's `total` field equals
`available + held` exactly; the invariant holds after every applied command
because every prefix of the input is itself an input sequence. -/
theorem C1_total_invariant (raws : List RawTxnInput)
    (p2 : TransactionProcessor)
    (h : TransactionProcessor.new.process_all raws = Except.ok p2)
    (c : ClientId) (s : ClientState)
    (hget : p2.db.get_client_state c = some s) :
    s.total = s.available + s.held := by
  have hinv : InvTotal p2.db := by
    refine InvTotal_process_all _ _ _ ?_ h
    intro x hx
    simp [TransactionProcessor.new, TxnDb.new] at hx
  exact hinv s (get_client_state_mem _ _ _ hget)

theorem C1_total_invariant_witness :
    TransactionProcessor.new.process_all [depositRaw 1 1 1] =
        Except.ok sampleP1 ∧
    sampleP1.db.get_client_state 1 =
      some { client_id := 1, available := 1, held := 0, total := 1,
             locked := LockedState.Unlocked } ∧
    ({ client_id := 1, available := 1, held := 0, total := 1,
       locked := LockedState.Unlocked } : ClientState).total =
      ({ client_id := 1, available := 1, held := 0, total := 1,
         locked := LockedState.Unlocked } : ClientState).available +
        ({ client_id := 1, available := 1, held := 0, total := 1,
           locked := LockedState.Unlocked } : ClientState).held :=
  ⟨rfl, rfl, C1_total_invariant [depositRaw 1 1 1] sampleP1 rfl 1 _ rfl⟩

/-- C2: once an account is locked, no later command — for this client the
lock is checked before any other rule, and commands for other clients only
touch their own rows — changes its `available`, `held`, `total` or `locked`
field: the whole row is returned unchanged after any further input. -/
theorem C2_locked_account_frozen (p : TransactionProcessor)
    (raws : List RawTxnInput) (p2 : TransactionProcessor) (c : ClientId)
    (s : ClientState) (hget : p.db.get_client_state c = some s)
    (hl : s.is_locked = true) (h : p.process_all raws = Except.ok p2) :
    p2.db.get_client_state c = some s :=
  process_all_locked p raws p2 c s hget hl h

theorem C2_locked_account_frozen_witness :
    sampleLockedP.db.get_client_state 1 =
      some { client_id := 1, available := 0, held := 0, total := 0,
             locked := LockedState.Locked } ∧
    ({ client_id := 1, available := 0, held := 0, total := 0,
       locked := LockedState.Locked } : ClientState).is_locked = true ∧
    sampleLockedP.process_all [depositRaw 1 2 5, disputeRaw 1 2] =
      Except.ok sampleLockedP ∧
    sampleLockedP.db.get_client_state 1 =
      some { client_id := 1, available := 0, held := 0, total := 0,
             locked := LockedState.Locked } :=
  ⟨rfl, rfl, rfl,
    C2_locked_account_frozen sampleLockedP [depositRaw 1 2 5, disputeRaw 1 2]
      sampleLockedP 1 _ rfl rfl rfl⟩

/-- An insufficient-funds transfer is one of the silent early returns. -/
theorem process_validated_insufficient (db : TxnDb) (s : ClientState)
    (np : Nat) (tr : BalanceTransfer) (hneg : tr.amount < 0)
    (hins : s.available + tr.amount < 0) :
    process_validated db s np (Txn.BalanceTransfer tr) =
      Except.ok { db := db, num_processed := np } := by
  by_cases hl : s.is_locked = true
  · simp only [process_validated]
    rw [if_pos hl]
  · simp only [process_validated]
    rw [if_neg hl, if_pos ⟨hneg, hins⟩]

/-- C5: a validated withdrawal (negative transfer amount) against an
existing account with `available + amount < 0` is rejected silently: the
processor returns with the whole engine state — store rows, transfer table
and counter — exactly as it was, and no error is raised. -/
theorem C5_insufficient_withdrawal_rejected (p : TransactionProcessor)
    (raw : RawTxnInput) (tr : BalanceTransfer) (s : ClientState)
    (hval : validate_raw_input raw = some (Txn.BalanceTransfer tr))
    (hneg : tr.amount < 0)
    (hget : p.db.get_client_state raw.client_id = some s)
    (hins : s.available + tr.amount < 0) :
    p.process raw = Except.ok p := by
  unfold TransactionProcessor.process
  simp only [hval, hget]
  rw [process_validated_insufficient p.db s p.num_processed tr hneg hins]

theorem C5_insufficient_withdrawal_rejected_witness :
    validate_raw_input (withdrawalRaw 1 2 5) =
      some (Txn.BalanceTransfer
        { client_id := 1, txn_id := 2, amount := -5 }) ∧
    (-5 : ℚ) < 0 ∧
    sampleP1.db.get_client_state (withdrawalRaw 1 2 5).client_id =
      some { client_id := 1, available := 1, held := 0, total := 1,
             locked := LockedState.Unlocked } ∧
    (1 : ℚ) + (-5) < 0 ∧
    sampleP1.process (withdrawalRaw 1 2 5) = Except.ok sampleP1 :=
  ⟨by decide, by decide, rfl, by decide,
    C5_insufficient_withdrawal_rejected sampleP1 (withdrawalRaw 1 2 5)
      { client_id := 1, txn_id := 2, amount := -5 }
      { client_id := 1, available := 1, held := 0, total := 1,
        locked := LockedState.Unlocked }
      (by decide) (by decide) rfl (by decide)⟩

/-- C7: evaluation of the exit-code logic of `fn main`.  The four
argument/path failures exit non-zero (`ExitCode::FAILURE` = 1) and a clean
run exits 0, as the claim states; but a fatal processing error only has its
report printed — `main` then returns `ExitCode::SUCCESS`, so the process
exits 0 where the claim (and §6 of the spec) require a non-zero code. -/
theorem C7_exit_code_behaviour :
    main_exit_code 1 true true true (Except.ok ()) = 1 ∧
    main_exit_code 2 false true true (Except.ok ()) = 1 ∧
    main_exit_code 2 true false true (Except.ok ()) = 1 ∧
    main_exit_code 2 true true false (Except.ok ()) = 1 ∧
    main_exit_code 2 true true true (Except.ok ()) = 0 ∧
    main_exit_code 2 true true true (Except.error MyError.Db) = 0 :=
  ⟨rfl, rfl, rfl, rfl, rfl, rfl⟩

/-- C8: in each of the three dispute-lifecycle branches, when the store
transition succeeded but the subsequent fetch of the referenced transfer
returns `none`, the branch produces a fatal `MyError` which `process`
propagates verbatim (`| Except.error e => Except.error e`) instead of
absorbing it as a silent rejection.  (Under the modelled store constraints
a successful transition in fact guarantees the fetch succeeds, so the
branch is unreachable from well-formed stores.) -/
theorem C8_missing_transfer_is_fatal (s : ClientState) :
    after_dispute_insert s none =
        Except.error (MyError.GenericFmt dispute_fetch_err_msg) ∧
    after_resolve_insert s none =
        Except.error (MyError.GenericFmt resolve_fetch_err_msg) ∧
    after_chargeback_insert s none =
        Except.error (MyError.GenericFmt chargeback_fetch_err_msg) :=
  ⟨rfl, rfl, rfl⟩

/-- Locked accounts short-circuit the whole state machine. -/
theorem process_validated_locked (db : TxnDb) (s : ClientState) (np : Nat)
    (txn : Txn) (hl : s.is_locked = true) :
    process_validated db s np txn =
      Except.ok { db := db, num_processed := np } := by
  unfold process_validated
  rw [if_pos hl]

/-- A duplicate `txn_id` (any client) makes the transfer insert fail with
the store unchanged. -/
theorem try_insert_balance_transfer_dup (db : TxnDb) (tr : BalanceTransfer)
    (hdup : ∃ bt ∈ db.transfers, bt.txn_id = tr.txn_id) :
    db.try_insert_balance_transfer tr = (false, db) := by
  unfold TxnDb.try_insert_balance_transfer
  have hany : db.transfers.any (fun bt => bt.txn_id == tr.txn_id) = true := by
    rcases hdup with ⟨bt, hm, he⟩
    rw [List.any_eq_true]
    exact ⟨bt, hm, by simp [he]⟩
  rw [if_pos (by simp [hany])]

/-- A failed transfer insert still runs the recompute-and-persist epilogue
with the unchanged state. -/
theorem process_validated_transfer_dupfail (db : TxnDb) (s : ClientState)
    (np : Nat) (tr : BalanceTransfer) (hl : s.is_locked = false)
    (hc : ¬(tr.amount < 0 ∧ s.available + tr.amount < 0))
    (hfail : db.try_insert_balance_transfer tr = (false, db)) :
    process_validated db s np (Txn.BalanceTransfer tr) =
      Except.ok (finish_update db s np) := by
  simp only [process_validated]
  rw [if_neg (by simp [hl]), if_neg hc, hfail]
  rfl

/-- C6: submitting a deposit or withdrawal whose `txn_id` was already used
by a previously recorded transfer — for the same client or any other —
succeeds as an ordinary rejection: no error, no new transfer row, and the
`available`, `held`, `total`, `locked` fields of every existing account are
unchanged. -/
theorem C6_duplicate_txn_id_no_balance_change (p : TransactionProcessor)
    (raw : RawTxnInput) (tr : BalanceTransfer) (hInv : InvTotal p.db)
    (hval : validate_raw_input raw = some (Txn.BalanceTransfer tr))
    (hdup : ∃ bt ∈ p.db.transfers, bt.txn_id = tr.txn_id) :
    ∃ p2, p.process raw = Except.ok p2 ∧
      p2.db.transfers = p.db.transfers ∧
      ∀ c s, p.db.get_client_state c = some s →
        ∃ s2, p2.db.get_client_state c = some s2 ∧
          s2.available = s.available ∧ s2.held = s.held ∧
          s2.total = s.total ∧ s2.locked = s.locked := by
  unfold TransactionProcessor.process
  cases hg : p.db.get_client_state raw.client_id with
  | some s0 =>
    simp only [hval, hg]
    have hkey : s0.client_id = raw.client_id := get_client_state_key _ _ _ hg
    by_cases hl : s0.is_locked = true
    · refine ⟨{ db := p.db, num_processed := p.num_processed },
        process_validated_locked _ _ _ _ hl, rfl, ?_⟩
      intro c s hgc
      exact ⟨s, hgc, rfl, rfl, rfl, rfl⟩
    · by_cases hc : tr.amount < 0 ∧ s0.available + tr.amount < 0
      · refine ⟨{ db := p.db, num_processed := p.num_processed },
          process_validated_insufficient _ _ _ _ hc.1 hc.2, rfl, ?_⟩
        intro c s hgc
        exact ⟨s, hgc, rfl, rfl, rfl, rfl⟩
      · refine ⟨finish_update p.db s0 p.num_processed,
          process_validated_transfer_dupfail _ _ _ _
            (by simp only [Bool.not_eq_true] at hl; exact hl) hc
            (try_insert_balance_transfer_dup _ _ hdup), rfl, ?_⟩
        intro c s hgc
        by_cases hcc : c = raw.client_id
        · subst hcc
          have hss : s = s0 := by
            rw [hg] at hgc
            exact (Option.some.injEq _ _).mp hgc.symm
          subst hss
          refine ⟨{ s with total := s.available + s.held },
            finish_update_get_eq _ _ _ _ hkey (by rw [hgc]; rfl), rfl, rfl,
            ?_, rfl⟩
          exact (hInv s (get_client_state_mem _ _ _ hgc)).symm
        · have hne : s0.client_id ≠ c := by
            rw [hkey]
            exact fun hh => hcc hh.symm
          refine ⟨s, ?_, rfl, rfl, rfl, rfl⟩
          rw [finish_update_get_ne _ _ _ _ hne]
          exact hgc
  | none =>
    simp only [hval, hg]
    by_cases hc : tr.amount < 0
    · have hins : (ClientState.init raw.client_id).available + tr.amount < 0 := by
        show (0 : ℚ) + tr.amount < 0
        rw [zero_add]
        exact hc
      refine ⟨TransactionProcessor.mk
          (p.db.create_client_state raw.client_id).2 p.num_processed,
        process_validated_insufficient _ _ _ _ hc hins, rfl, ?_⟩
      intro c s hgc
      have hcc : c ≠ raw.client_id := by
        intro hh
        rw [hh, hg] at hgc
        exact Option.noConfusion hgc
      refine ⟨s, ?_, rfl, rfl, rfl, rfl⟩
      show (p.db.create_client_state raw.client_id).2.get_client_state c = some s
      rw [get_client_state_create_ne _ _ _ hcc]
      exact hgc
    · have hfail : (p.db.create_client_state raw.client_id).2.try_insert_balance_transfer tr =
          (false, (p.db.create_client_state raw.client_id).2) :=
        try_insert_balance_transfer_dup _ _ hdup
      refine ⟨finish_update (p.db.create_client_state raw.client_id).2
          (ClientState.init raw.client_id) p.num_processed,
        process_validated_transfer_dupfail _ _ _ _ rfl
          (fun hh => hc hh.1) hfail, rfl, ?_⟩
      intro c s hgc
      have hcc : c ≠ raw.client_id := by
        intro hh
        rw [hh, hg] at hgc
        exact Option.noConfusion hgc
      refine ⟨s, ?_, rfl, rfl, rfl, rfl⟩
      rw [finish_update_get_ne _ _ _ _
        (show (ClientState.init raw.client_id).client_id ≠ c from
          fun hh => hcc hh.symm)]
      rw [get_client_state_create_ne _ _ _ hcc]
      exact hgc

theorem C6_duplicate_txn_id_no_balance_change_witness :
    InvTotal sampleP1.db ∧
    validate_raw_input (depositRaw 2 1 3) =
      some (Txn.BalanceTransfer { client_id := 2, txn_id := 1, amount := 3 }) ∧
    (∃ bt ∈ sampleP1.db.transfers,
      bt.txn_id = ({ client_id := 2, txn_id := 1, amount := 3 } :
        BalanceTransfer).txn_id) ∧
    (∃ p2, sampleP1.process (depositRaw 2 1 3) = Except.ok p2 ∧
      p2.db.transfers = sampleP1.db.transfers ∧
      ∀ c s, sampleP1.db.get_client_state c = some s →
        ∃ s2, p2.db.get_client_state c = some s2 ∧
          s2.available = s.available ∧ s2.held = s.held ∧
          s2.total = s.total ∧ s2.locked = s.locked) :=
  ⟨by unfold InvTotal; decide, by decide, by decide,
    C6_duplicate_txn_id_no_balance_change sampleP1 (depositRaw 2 1 3)
      { client_id := 2, txn_id := 1, amount := 3 }
      (by unfold InvTotal; decide) (by decide) (by decide)⟩

/-- Without a matching transfer row the dispute insert fails (FK). -/
theorem try_insert_dispute_no_transfer (db : TxnDb) (c : ClientId)
    (t : TransactionId)
    (h : ∀ bt ∈ db.transfers, ¬(bt.client_id = c ∧ bt.txn_id = t)) :
    db.try_insert_dispute c t = (false, db) := by
  unfold TxnDb.try_insert_dispute
  have hany : db.transfers.any
      (fun bt => bt.client_id == c && bt.txn_id == t) = false := by
    rw [List.any_eq_false]
    intro bt hm
    simp only [Bool.and_eq_true, beq_iff_eq]
    exact h bt hm
  rw [if_pos (by simp [hany])]

/-- Without a matching dispute row the resolution insert fails (FK). -/
theorem try_insert_resolution_no_dispute (db : TxnDb) (c : ClientId)
    (t : TransactionId) (st : DisputeStatus)
    (h : ∀ d ∈ db.disputes, ¬(d.1 = c ∧ d.2 = t)) :
    db.try_insert_resolution c t st = (false, db) := by
  unfold TxnDb.try_insert_resolution
  have hany : db.disputes.any
      (fun d => d.1 == c && d.2 == t) = false := by
    rw [List.any_eq_false]
    intro d hm
    simp only [Bool.and_eq_true, beq_iff_eq]
    exact h d hm
  rw [if_pos (by simp [hany])]

/-- A failed dispute insert still runs the epilogue with the state as is. -/
theorem process_validated_dispute_fail (db : TxnDb) (s : ClientState)
    (np : Nat) (c : ClientId) (t : TransactionId) (hl : s.is_locked = false)
    (hfail : db.try_insert_dispute c t = (false, db)) :
    process_validated db s np (Txn.Dispute c t) =
      Except.ok (finish_update db s np) := by
  simp only [process_validated]
  rw [if_neg (by simp [hl]), hfail]
  rfl

/-- A failed resolve transition still runs the epilogue. -/
theorem process_validated_resolve_fail (db : TxnDb) (s : ClientState)
    (np : Nat) (c : ClientId) (t : TransactionId) (hl : s.is_locked = false)
    (hfail : db.try_resolve_dispute c t = (false, db)) :
    process_validated db s np (Txn.Resolve c t) =
      Except.ok (finish_update db s np) := by
  simp only [process_validated]
  rw [if_neg (by simp [hl]), hfail]
  rfl

/-- A failed chargeback transition still runs the epilogue. -/
theorem process_validated_chargeback_fail (db : TxnDb) (s : ClientState)
    (np : Nat) (c : ClientId) (t : TransactionId) (hl : s.is_locked = false)
    (hfail : db.try_chargeback_dispute c t = (false, db)) :
    process_validated db s np (Txn.Chargeback c t) =
      Except.ok (finish_update db s np) := by
  simp only [process_validated]
  rw [if_neg (by simp [hl]), hfail]
  rfl

/-- The commands the validator can produce, with their key fields tied to
the raw record. -/
theorem validate_raw_input_shape (raw : RawTxnInput) (txn : Txn)
    (h : validate_raw_input raw = some txn) :
    (∃ tr, txn = Txn.BalanceTransfer tr ∧ tr.client_id = raw.client_id) ∨
    txn = Txn.Dispute raw.client_id raw.txn_id ∨
    txn = Txn.Resolve raw.client_id raw.txn_id ∨
    txn = Txn.Chargeback raw.client_id raw.txn_id := by
  unfold validate_raw_input at h
  cases htt : raw.txn_type with
  | Invalid =>
    rw [htt] at h
    simp at h
  | Deposit =>
    rw [htt] at h
    simp only at h
    split at h
    · simp at h
    · simp only [Option.some.injEq] at h
      exact Or.inl ⟨_, h.symm, rfl⟩
  | Withdrawal =>
    rw [htt] at h
    simp only at h
    split at h
    · simp at h
    · simp only [Option.some.injEq] at h
      exact Or.inl ⟨_, h.symm, rfl⟩
  | Dispute =>
    rw [htt] at h
    simp only at h
    split at h
    · simp at h
    · simp only [Option.some.injEq] at h
      exact Or.inr (Or.inl h.symm)
  | Resolve =>
    rw [htt] at h
    simp only at h
    split at h
    · simp at h
    · simp only [Option.some.injEq] at h
      exact Or.inr (Or.inr (Or.inl h.symm))
  | Chargeback =>
    rw [htt] at h
    simp only at h
    split at h
    · simp at h
    · simp only [Option.some.injEq] at h
      exact Or.inr (Or.inr (Or.inr h.symm))

/-- A freshly created account is unlocked. -/
theorem create_client_state_fst_is_locked (db : TxnDb) (c : ClientId) :
    (db.create_client_state c).1.is_locked = false := rfl

/-- C9: any validated command naming an unseen client creates that client's
account row (all balances zero, unlocked) before the business rules run, so
the client exists in the final `Clients` table even when the command itself
is rejected; and for every such command other than a deposit (insufficient
withdrawal, or dispute/resolve/chargeback with nothing to reference) the
persisted row is exactly the zeroed account. -/
theorem C9_unseen_client_account_created (p : TransactionProcessor)
    (raw : RawTxnInput) (txn : Txn)
    (hval : validate_raw_input raw = some txn)
    (hget : p.db.get_client_state raw.client_id = none)
    (hT : ∀ bt ∈ p.db.transfers, bt.client_id ≠ raw.client_id)
    (hD : ∀ d ∈ p.db.disputes, d.1 ≠ raw.client_id) :
    ∃ p2, p.process raw = Except.ok p2 ∧
      ∃ s, p2.db.get_client_state raw.client_id = some s ∧
        ((∀ tr, txn = Txn.BalanceTransfer tr → tr.amount < 0) →
          s = ClientState.init raw.client_id) := by
  have hcs : (p.db.create_client_state raw.client_id).2.get_client_state
      raw.client_id = some (ClientState.init raw.client_id) := by
    have hh := get_client_state_create_self p.db raw.client_id
    rw [hget] at hh
    simpa using hh
  have hinit_eq : ({ ClientState.init raw.client_id with
      total := (ClientState.init raw.client_id).available +
        (ClientState.init raw.client_id).held }) =
      ClientState.init raw.client_id := by
    simp [ClientState.init]
  unfold TransactionProcessor.process
  simp only [hval, hget]
  rcases validate_raw_input_shape raw txn hval with ⟨tr, htx, hcid⟩ | htx | htx | htx
  · subst htx
    by_cases ha : tr.amount < 0
    · have hins : (p.db.create_client_state raw.client_id).1.available +
          tr.amount < 0 := by
        show (0 : ℚ) + tr.amount < 0
        rw [zero_add]
        exact ha
      exact ⟨_, process_validated_insufficient _ _ _ _ ha hins,
        ClientState.init raw.client_id, hcs, fun _ => rfl⟩
    · have hsome : (((p.db.create_client_state
          raw.client_id).2.try_insert_balance_transfer
            tr).2.get_client_state raw.client_id).isSome := by
        rw [get_client_state_clients _
          (p.db.create_client_state raw.client_id).2 _
          (try_insert_balance_transfer_clients _ _), hcs]
        rfl
      by_cases hr : ((p.db.create_client_state
          raw.client_id).2.try_insert_balance_transfer tr).1 = true
      · have hpe : process_validated
            (p.db.create_client_state raw.client_id).2
            (p.db.create_client_state raw.client_id).1 p.num_processed
            (Txn.BalanceTransfer tr) =
            Except.ok (finish_update
              ((p.db.create_client_state
                raw.client_id).2.try_insert_balance_transfer tr).2
              { (p.db.create_client_state raw.client_id).1 with
                available := (p.db.create_client_state
                  raw.client_id).1.available + tr.amount }
              (p.num_processed + 1)) := by
          simp only [process_validated]
          rw [if_neg (by simp [create_client_state_fst_is_locked]), if_neg (fun hh => ha hh.1), if_pos hr]
        exact ⟨_, hpe, _, finish_update_get_eq _ _ _ _ rfl hsome,
          fun hga => absurd (hga tr rfl) ha⟩
      · have hpe : process_validated
            (p.db.create_client_state raw.client_id).2
            (p.db.create_client_state raw.client_id).1 p.num_processed
            (Txn.BalanceTransfer tr) =
            Except.ok (finish_update
              ((p.db.create_client_state
                raw.client_id).2.try_insert_balance_transfer tr).2
              (p.db.create_client_state raw.client_id).1 p.num_processed) := by
          simp only [process_validated]
          rw [if_neg (by simp [create_client_state_fst_is_locked]), if_neg (fun hh => ha hh.1), if_neg hr]
        exact ⟨_, hpe, _, finish_update_get_eq _ _ _ _ rfl hsome,
          fun hga => absurd (hga tr rfl) ha⟩
  · subst htx
    have hfail := try_insert_dispute_no_transfer
      (p.db.create_client_state raw.client_id).2 raw.client_id raw.txn_id
      (fun bt hm hh => hT bt hm hh.1)
    refine ⟨_, process_validated_dispute_fail _ _ _ _ _ rfl hfail, _,
      finish_update_get_eq _ _ _ _ rfl (by rw [hcs]; rfl), fun _ => ?_⟩
    exact hinit_eq
  · subst htx
    have hfail := try_insert_resolution_no_dispute
      (p.db.create_client_state raw.client_id).2 raw.client_id raw.txn_id
      DisputeStatus.Resolved (fun d hm hh => hD d hm hh.1)
    refine ⟨_, process_validated_resolve_fail _ _ _ _ _ rfl hfail, _,
      finish_update_get_eq _ _ _ _ rfl (by rw [hcs]; rfl), fun _ => ?_⟩
    exact hinit_eq
  · subst htx
    have hfail := try_insert_resolution_no_dispute
      (p.db.create_client_state raw.client_id).2 raw.client_id raw.txn_id
      DisputeStatus.Chargeback (fun d hm hh => hD d hm hh.1)
    refine ⟨_, process_validated_chargeback_fail _ _ _ _ _ rfl hfail, _,
      finish_update_get_eq _ _ _ _ rfl (by rw [hcs]; rfl), fun _ => ?_⟩
    exact hinit_eq

theorem C9_unseen_client_account_created_witness :
    validate_raw_input (disputeRaw 7 3) = some (Txn.Dispute 7 3) ∧
    TransactionProcessor.new.db.get_client_state (disputeRaw 7 3).client_id =
      none ∧
    (∃ p2, TransactionProcessor.new.process (disputeRaw 7 3) =
        Except.ok p2 ∧
      ∃ s, p2.db.get_client_state (disputeRaw 7 3).client_id = some s ∧
        ((∀ tr, Txn.Dispute 7 3 = Txn.BalanceTransfer tr → tr.amount < 0) →
          s = ClientState.init (disputeRaw 7 3).client_id)) :=
  ⟨by decide, by decide,
    C9_unseen_client_account_created TransactionProcessor.new (disputeRaw 7 3)
      (Txn.Dispute 7 3) (by decide) (by decide)
      (by intro bt hm; simp [TransactionProcessor.new, TxnDb.new] at hm)
      (by intro d hm; simp [TransactionProcessor.new, TxnDb.new] at hm)⟩

theorem disputeRaw_client_id (c : ClientId) (t : TransactionId) :
    (disputeRaw c t).client_id = c := rfl

theorem resolveRaw_client_id (c : ClientId) (t : TransactionId) :
    (resolveRaw c t).client_id = c := rfl

theorem chargebackRaw_client_id (c : ClientId) (t : TransactionId) :
    (chargebackRaw c t).client_id = c := rfl

/-- `is_locked` only looks at the `locked` field. -/
theorem is_locked_of_locked_eq (s1 s2 : ClientState)
    (h : s1.locked = s2.locked) : s1.is_locked = s2.is_locked := by
  unfold ClientState.is_locked
  rw [h]

/-- Unpacking a successful transfer fetch. -/
theorem get_balance_transfer_mem (db : TxnDb) (c : ClientId)
    (t : TransactionId) (bt : BalanceTransfer)
    (h : db.get_balance_transfer c t = some bt) :
    bt ∈ db.transfers ∧ bt.client_id = c ∧ bt.txn_id = t := by
  refine ⟨List.mem_of_find?_eq_some h, ?_⟩
  have hp := List.find?_some h
  simp only [Bool.and_eq_true, beq_iff_eq] at hp
  exact hp

/-- With a backing transfer and no previous dispute, the dispute insert
succeeds and appends the dispute row. -/
theorem try_insert_dispute_success (db : TxnDb) (c : ClientId)
    (t : TransactionId)
    (hnd : ∀ d ∈ db.disputes, ¬(d.1 = c ∧ d.2 = t))
    (hex : ∃ bt ∈ db.transfers, bt.client_id = c ∧ bt.txn_id = t) :
    db.try_insert_dispute c t =
      (true, { db with disputes := db.disputes ++ [(c, t)] }) := by
  unfold TxnDb.try_insert_dispute
  have h1 : db.disputes.any (fun d => d.1 == c && d.2 == t) = false := by
    rw [List.any_eq_false]
    intro d hm
    simp only [Bool.and_eq_true, beq_iff_eq]
    exact hnd d hm
  have h2 : db.transfers.any
      (fun bt => bt.client_id == c && bt.txn_id == t) = true := by
    rw [List.any_eq_true]
    rcases hex with ⟨bt, hm, hb⟩
    exact ⟨bt, hm, by simp [hb.1, hb.2]⟩
  rw [if_neg (by simp [h1, h2])]

/-- With an open dispute and no previous resolution, the resolution insert
succeeds and appends the resolution row. -/
theorem try_insert_resolution_success (db : TxnDb) (c : ClientId)
    (t : TransactionId) (st : DisputeStatus)
    (hnr : ∀ r ∈ db.resolutions, ¬(r.1 = c ∧ r.2.1 = t))
    (hd : ∃ d ∈ db.disputes, d.1 = c ∧ d.2 = t) :
    db.try_insert_resolution c t st =
      (true, { db with resolutions := db.resolutions ++ [(c, t, st)] }) := by
  unfold TxnDb.try_insert_resolution
  have h1 : db.resolutions.any (fun r => r.1 == c && r.2.1 == t) = false := by
    rw [List.any_eq_false]
    intro r hm
    simp only [Bool.and_eq_true, beq_iff_eq]
    exact hnr r hm
  have h2 : db.disputes.any (fun d => d.1 == c && d.2 == t) = true := by
    rw [List.any_eq_true]
    rcases hd with ⟨d, hm, hb⟩
    exact ⟨d, hm, by simp [hb.1, hb.2]⟩
  rw [if_neg (by simp [h1, h2])]

/-- The applied dispute branch: insert the dispute row, fetch the transfer,
adjust the balances, recompute and persist. -/
theorem process_validated_dispute_apply (db : TxnDb) (s : ClientState)
    (np : Nat) (c : ClientId) (t : TransactionId) (bt : BalanceTransfer)
    (hl : s.is_locked = false)
    (hnd : ∀ d ∈ db.disputes, ¬(d.1 = c ∧ d.2 = t))
    (hbt : db.get_balance_transfer c t = some bt) :
    process_validated db s np (Txn.Dispute c t) =
      Except.ok (finish_update
        { db with disputes := db.disputes ++ [(c, t)] }
        (dispute_adjust s bt) (np + 1)) := by
  have hmem := get_balance_transfer_mem db c t bt hbt
  have hins := try_insert_dispute_success db c t hnd ⟨bt, hmem.1, hmem.2⟩
  have h1 : (db.try_insert_dispute c t).1 = true := by rw [hins]
  have h2 : (db.try_insert_dispute c t).2 =
      { db with disputes := db.disputes ++ [(c, t)] } := by rw [hins]
  have hfetch : ({ db with disputes := db.disputes ++ [(c, t)] } :
      TxnDb).get_balance_transfer c t = some bt :=
    (get_balance_transfer_transfers _ db c t rfl).trans hbt
  simp only [process_validated]
  rw [if_neg (by simp [hl]), if_pos h1, h2, hfetch]
  simp only [after_dispute_insert]

/-- The applied resolve branch. -/
theorem process_validated_resolve_apply (db : TxnDb) (s : ClientState)
    (np : Nat) (c : ClientId) (t : TransactionId) (bt : BalanceTransfer)
    (hl : s.is_locked = false)
    (hnr : ∀ r ∈ db.resolutions, ¬(r.1 = c ∧ r.2.1 = t))
    (hd : ∃ d ∈ db.disputes, d.1 = c ∧ d.2 = t)
    (hbt : db.get_balance_transfer c t = some bt) :
    process_validated db s np (Txn.Resolve c t) =
      Except.ok (finish_update
        { db with resolutions :=
            db.resolutions ++ [(c, t, DisputeStatus.Resolved)] }
        (resolve_adjust s bt) (np + 1)) := by
  have hins := try_insert_resolution_success db c t DisputeStatus.Resolved hnr hd
  have h1 : (db.try_resolve_dispute c t).1 = true := by
    unfold TxnDb.try_resolve_dispute
    rw [hins]
  have h2 : (db.try_resolve_dispute c t).2 =
      { db with resolutions :=
          db.resolutions ++ [(c, t, DisputeStatus.Resolved)] } := by
    unfold TxnDb.try_resolve_dispute
    rw [hins]
  have hfetch : ({ db with resolutions :=
      db.resolutions ++ [(c, t, DisputeStatus.Resolved)] } :
      TxnDb).get_balance_transfer c t = some bt :=
    (get_balance_transfer_transfers _ db c t rfl).trans hbt
  simp only [process_validated]
  rw [if_neg (by simp [hl]), if_pos h1, h2, hfetch]
  simp only [after_resolve_insert]

/-- The applied chargeback branch. -/
theorem process_validated_chargeback_apply (db : TxnDb) (s : ClientState)
    (np : Nat) (c : ClientId) (t : TransactionId) (bt : BalanceTransfer)
    (hl : s.is_locked = false)
    (hnr : ∀ r ∈ db.resolutions, ¬(r.1 = c ∧ r.2.1 = t))
    (hd : ∃ d ∈ db.disputes, d.1 = c ∧ d.2 = t)
    (hbt : db.get_balance_transfer c t = some bt) :
    process_validated db s np (Txn.Chargeback c t) =
      Except.ok (finish_update
        { db with resolutions :=
            db.resolutions ++ [(c, t, DisputeStatus.Chargeback)] }
        (chargeback_adjust s bt) (np + 1)) := by
  have hins := try_insert_resolution_success db c t DisputeStatus.Chargeback hnr hd
  have h1 : (db.try_chargeback_dispute c t).1 = true := by
    unfold TxnDb.try_chargeback_dispute
    rw [hins]
  have h2 : (db.try_chargeback_dispute c t).2 =
      { db with resolutions :=
          db.resolutions ++ [(c, t, DisputeStatus.Chargeback)] } := by
    unfold TxnDb.try_chargeback_dispute
    rw [hins]
  have hfetch : ({ db with resolutions :=
      db.resolutions ++ [(c, t, DisputeStatus.Chargeback)] } :
      TxnDb).get_balance_transfer c t = some bt :=
    (get_balance_transfer_transfers _ db c t rfl).trans hbt
  simp only [process_validated]
  rw [if_neg (by simp [hl]), if_pos h1, h2, hfetch]
  simp only [after_chargeback_insert]

/-- A dispute against an undisputed, recorded transfer of an unlocked
account: the full effect of one `process` call. -/
theorem process_dispute_step (p : TransactionProcessor) (c : ClientId)
    (t : TransactionId) (s : ClientState) (bt : BalanceTransfer)
    (hget : p.db.get_client_state c = some s)
    (hlock : s.is_locked = false)
    (hnd : ∀ d ∈ p.db.disputes, ¬(d.1 = c ∧ d.2 = t))
    (hbt : p.db.get_balance_transfer c t = some bt) :
    ∃ p1, p.process (disputeRaw c t) = Except.ok p1 ∧
      p1.db.get_client_state c =
        some { dispute_adjust s bt with
          total := (dispute_adjust s bt).available +
            (dispute_adjust s bt).held } ∧
      p1.db.get_balance_transfer c t = some bt ∧
      p1.db.disputes = p.db.disputes ++ [(c, t)] ∧
      p1.db.resolutions = p.db.resolutions := by
  have hkey : s.client_id = c := get_client_state_key _ _ _ hget
  have hp1 : p.process (disputeRaw c t) =
      Except.ok (finish_update
        { p.db with disputes := p.db.disputes ++ [(c, t)] }
        (dispute_adjust s bt) (p.num_processed + 1)) := by
    unfold TransactionProcessor.process
    have hv : validate_raw_input (disputeRaw c t) =
        some (Txn.Dispute c t) := rfl
    simp only [hv, disputeRaw_client_id, hget]
    exact process_validated_dispute_apply p.db s p.num_processed c t bt
      hlock hnd hbt
  refine ⟨_, hp1, ?_, ?_, rfl, rfl⟩
  · refine finish_update_get_eq _ _ _ _
      (by rw [dispute_adjust_client_id]; exact hkey) ?_
    rw [(get_client_state_clients
      { p.db with disputes := p.db.disputes ++ [(c, t)] } p.db c rfl).trans
      hget]
    rfl
  · exact (get_balance_transfer_transfers _ p.db c t rfl).trans hbt

/-- A resolve of an open dispute of an unlocked account: the full effect of
one `process` call. -/
theorem process_resolve_step (p : TransactionProcessor) (c : ClientId)
    (t : TransactionId) (s : ClientState) (bt : BalanceTransfer)
    (hget : p.db.get_client_state c = some s)
    (hlock : s.is_locked = false)
    (hnr : ∀ r ∈ p.db.resolutions, ¬(r.1 = c ∧ r.2.1 = t))
    (hd : ∃ d ∈ p.db.disputes, d.1 = c ∧ d.2 = t)
    (hbt : p.db.get_balance_transfer c t = some bt) :
    ∃ p2, p.process (resolveRaw c t) = Except.ok p2 ∧
      p2.db.get_client_state c =
        some { resolve_adjust s bt with
          total := (resolve_adjust s bt).available +
            (resolve_adjust s bt).held } := by
  have hkey : s.client_id = c := get_client_state_key _ _ _ hget
  have hp2 : p.process (resolveRaw c t) =
      Except.ok (finish_update
        { p.db with resolutions :=
            p.db.resolutions ++ [(c, t, DisputeStatus.Resolved)] }
        (resolve_adjust s bt) (p.num_processed + 1)) := by
    unfold TransactionProcessor.process
    have hv : validate_raw_input (resolveRaw c t) =
        some (Txn.Resolve c t) := rfl
    simp only [hv, resolveRaw_client_id, hget]
    exact process_validated_resolve_apply p.db s p.num_processed c t bt
      hlock hnr hd hbt
  refine ⟨_, hp2, ?_⟩
  refine finish_update_get_eq _ _ _ _
    (by rw [resolve_adjust_client_id]; exact hkey) ?_
  rw [(get_client_state_clients
    { p.db with resolutions :=
        p.db.resolutions ++ [(c, t, DisputeStatus.Resolved)] } p.db c
    rfl).trans hget]
  rfl

/-- A chargeback of an open dispute of an unlocked account: the full effect
of one `process` call. -/
theorem process_chargeback_step (p : TransactionProcessor) (c : ClientId)
    (t : TransactionId) (s : ClientState) (bt : BalanceTransfer)
    (hget : p.db.get_client_state c = some s)
    (hlock : s.is_locked = false)
    (hnr : ∀ r ∈ p.db.resolutions, ¬(r.1 = c ∧ r.2.1 = t))
    (hd : ∃ d ∈ p.db.disputes, d.1 = c ∧ d.2 = t)
    (hbt : p.db.get_balance_transfer c t = some bt) :
    ∃ p2, p.process (chargebackRaw c t) = Except.ok p2 ∧
      p2.db.get_client_state c =
        some { chargeback_adjust s bt with
          total := (chargeback_adjust s bt).available +
            (chargeback_adjust s bt).held } := by
  have hkey : s.client_id = c := get_client_state_key _ _ _ hget
  have hp2 : p.process (chargebackRaw c t) =
      Except.ok (finish_update
        { p.db with resolutions :=
            p.db.resolutions ++ [(c, t, DisputeStatus.Chargeback)] }
        (chargeback_adjust s bt) (p.num_processed + 1)) := by
    unfold TransactionProcessor.process
    have hv : validate_raw_input (chargebackRaw c t) =
        some (Txn.Chargeback c t) := rfl
    simp only [hv, chargebackRaw_client_id, hget]
    exact process_validated_chargeback_apply p.db s p.num_processed c t bt
      hlock hnr hd hbt
  refine ⟨_, hp2, ?_⟩
  refine finish_update_get_eq _ _ _ _
    (by rw [chargeback_adjust_client_id]; exact hkey) ?_
  rw [(get_client_state_clients
    { p.db with resolutions :=
        p.db.resolutions ++ [(c, t, DisputeStatus.Chargeback)] } p.db c
    rfl).trans hget]
  rfl

/-- Resolving exactly undoes the dispute adjustment on `available`, `held`
and `locked`. -/
theorem resolve_adjust_restores (s s1 : ClientState) (bt : BalanceTransfer)
    (h1 : s1.available = (dispute_adjust s bt).available)
    (h2 : s1.held = (dispute_adjust s bt).held)
    (h3 : s1.locked = (dispute_adjust s bt).locked) :
    (resolve_adjust s1 bt).available = s.available ∧
    (resolve_adjust s1 bt).held = s.held ∧
    (resolve_adjust s1 bt).locked = s.locked := by
  by_cases hamt : bt.amount < 0
  · simp only [dispute_adjust, resolve_adjust, if_pos hamt] at h1 h2 h3 ⊢
    refine ⟨h1, ?_, h3⟩
    rw [h2]
    ring
  · simp only [dispute_adjust, resolve_adjust, if_neg hamt] at h1 h2 h3 ⊢
    refine ⟨?_, ?_, h3⟩
    · rw [h1]
      ring
    · rw [h2]
      ring

/-- Disputing a deposit moves money between `available` and `held` without
changing their sum. -/
theorem dispute_adjust_sum_deposit (s : ClientState) (bt : BalanceTransfer)
    (h : ¬bt.amount < 0) :
    (dispute_adjust s bt).available + (dispute_adjust s bt).held =
      s.available + s.held := by
  simp only [dispute_adjust, if_neg h]
  ring

/-- Disputing a withdrawal grows the sum `available + held` by the
withdrawal's magnitude. -/
theorem dispute_adjust_sum_withdrawal (s : ClientState)
    (bt : BalanceTransfer) (h : bt.amount < 0) :
    (dispute_adjust s bt).available + (dispute_adjust s bt).held =
      s.available + s.held - bt.amount := by
  simp only [dispute_adjust, if_pos h]
  ring

/-- C3 (counterexample to the claim as stated): for
`deposit(c1,t10,1.0)`, `withdrawal(c1,t11,1.0)` the account totals 0;
`dispute(c1,t11)` succeeds and the recomputed total is 1; the following
`resolve(c1,t11)` also succeeds and total returns to 0.  So in a
successfully applied dispute/resolve round trip of a withdrawal, `total`
is not unchanged after the dispute, refuting "total is unchanged
throughout". -/
theorem C3_total_not_unchanged_counterexample :
    run_client_state [depositRaw 1 10 1, withdrawalRaw 1 11 1] 1 =
      some { client_id := 1, available := 0, held := 0, total := 0,
             locked := LockedState.Unlocked } ∧
    run_client_state [depositRaw 1 10 1, withdrawalRaw 1 11 1,
        disputeRaw 1 11] 1 =
      some { client_id := 1, available := 0, held := 1, total := 1,
             locked := LockedState.Unlocked } ∧
    run_client_state [depositRaw 1 10 1, withdrawalRaw 1 11 1,
        disputeRaw 1 11, resolveRaw 1 11] 1 =
      some { client_id := 1, available := 0, held := 0, total := 0,
             locked := LockedState.Unlocked } ∧
    ¬(({ client_id := 1, available := 0, held := 1, total := 1,
         locked := LockedState.Unlocked } : ClientState).total =
      ({ client_id := 1, available := 0, held := 0, total := 0,
         locked := LockedState.Unlocked } : ClientState).total) :=
  ⟨rfl, rfl, rfl, by decide⟩

/-- C3 (amended): a successful `dispute(tx)`/`resolve(tx)` round trip
restores `available`, `held` (and `locked`) to their exact pre-dispute
values and brings `total` back to its pre-dispute value; in between,
`total` is unchanged by the dispute when the disputed transfer is a deposit
(`amount ≥ 0`), while for a disputed withdrawal the dispute raises `total`
by the withdrawal's magnitude (`total - amount`, `amount < 0`). -/
theorem C3_dispute_resolve_roundtrip (p : TransactionProcessor)
    (c : ClientId) (t : TransactionId) (s : ClientState)
    (bt : BalanceTransfer)
    (hget : p.db.get_client_state c = some s)
    (hlock : s.is_locked = false)
    (htot : s.total = s.available + s.held)
    (hbt : p.db.get_balance_transfer c t = some bt)
    (hnd : ∀ d ∈ p.db.disputes, ¬(d.1 = c ∧ d.2 = t))
    (hnr : ∀ r ∈ p.db.resolutions, ¬(r.1 = c ∧ r.2.1 = t)) :
    ∃ p1 p2 s1 s2,
      p.process (disputeRaw c t) = Except.ok p1 ∧
      p1.process (resolveRaw c t) = Except.ok p2 ∧
      p1.db.get_client_state c = some s1 ∧
      p2.db.get_client_state c = some s2 ∧
      s2.available = s.available ∧ s2.held = s.held ∧
      s2.total = s.total ∧ s2.locked = s.locked ∧
      (0 ≤ bt.amount → s1.total = s.total) ∧
      (bt.amount < 0 → s1.total = s.total - bt.amount) := by
  obtain ⟨p1, hp1, hg1, hf1, hd1, hr1⟩ :=
    process_dispute_step p c t s bt hget hlock hnd hbt
  have hl1 : ({ dispute_adjust s bt with
      total := (dispute_adjust s bt).available +
        (dispute_adjust s bt).held } : ClientState).is_locked = false :=
    (is_locked_of_locked_eq _ s (dispute_adjust_locked s bt)).trans hlock
  have hnr1 : ∀ r ∈ p1.db.resolutions, ¬(r.1 = c ∧ r.2.1 = t) := by
    intro r hm
    rw [hr1] at hm
    exact hnr r hm
  have hd2 : ∃ d ∈ p1.db.disputes, d.1 = c ∧ d.2 = t := by
    refine ⟨(c, t), ?_, rfl, rfl⟩
    rw [hd1]
    simp
  obtain ⟨p2, hp2, hg2⟩ :=
    process_resolve_step p1 c t _ bt hg1 hl1 hnr1 hd2 hf1
  have hrest := resolve_adjust_restores s
    { dispute_adjust s bt with
      total := (dispute_adjust s bt).available + (dispute_adjust s bt).held }
    bt rfl rfl rfl
  refine ⟨p1, p2, _, _, hp1, hp2, hg1, hg2, ?_, ?_, ?_, ?_, ?_, ?_⟩
  · exact hrest.1
  · exact hrest.2.1
  · show (resolve_adjust _ bt).available + (resolve_adjust _ bt).held = s.total
    rw [hrest.1, hrest.2.1]
    exact htot.symm
  · exact hrest.2.2
  · intro hge
    show (dispute_adjust s bt).available + (dispute_adjust s bt).held = s.total
    rw [dispute_adjust_sum_deposit s bt (not_lt.mpr hge)]
    exact htot.symm
  · intro hlt
    show (dispute_adjust s bt).available + (dispute_adjust s bt).held =
      s.total - bt.amount
    rw [dispute_adjust_sum_withdrawal s bt hlt, htot]

theorem C3_dispute_resolve_roundtrip_witness :
    ∃ p1 p2 s1 s2,
      sampleP1.process (disputeRaw 1 1) = Except.ok p1 ∧
      p1.process (resolveRaw 1 1) = Except.ok p2 ∧
      p1.db.get_client_state 1 = some s1 ∧
      p2.db.get_client_state 1 = some s2 ∧
      s2.available = (1 : ℚ) ∧ s2.held = (0 : ℚ) ∧
      s2.total = (1 : ℚ) ∧ s2.locked = LockedState.Unlocked ∧
      (0 ≤ (1 : ℚ) → s1.total = 1) ∧
      ((1 : ℚ) < 0 → s1.total = 1 - 1) :=
  C3_dispute_resolve_roundtrip sampleP1 1 1
    { client_id := 1, available := 1, held := 0, total := 1,
      locked := LockedState.Unlocked }
    { client_id := 1, txn_id := 1, amount := 1 }
    rfl rfl (by decide) rfl (by decide) (by decide)

/-- C4: a chargeback of a disputed withdrawal applies
`held += amount`, `available -= amount` (`amount < 0`) and locks the
account; concretely, scenario E
(`deposit(c1,t10,1.0)`, `withdrawal(c1,t11,1.0)`, `dispute(c1,t11)`,
`chargeback(c1,t11)`) ends with
`available = 1`, `held = 0`, `total = 1`, `locked = true`. -/
theorem C4_chargeback_withdrawal (p : TransactionProcessor) (c : ClientId)
    (t : TransactionId) (s : ClientState) (bt : BalanceTransfer)
    (hget : p.db.get_client_state c = some s)
    (hlock : s.is_locked = false)
    (hbt : p.db.get_balance_transfer c t = some bt)
    (hneg : bt.amount < 0)
    (hd : ∃ d ∈ p.db.disputes, d.1 = c ∧ d.2 = t)
    (hnr : ∀ r ∈ p.db.resolutions, ¬(r.1 = c ∧ r.2.1 = t)) :
    (∃ p2 s2, p.process (chargebackRaw c t) = Except.ok p2 ∧
      p2.db.get_client_state c = some s2 ∧
      s2.held = s.held + bt.amount ∧
      s2.available = s.available - bt.amount ∧
      s2.locked = LockedState.Locked) ∧
    run_client_state [depositRaw 1 10 1, withdrawalRaw 1 11 1,
        disputeRaw 1 11, chargebackRaw 1 11] 1 =
      some { client_id := 1, available := 1, held := 0, total := 1,
             locked := LockedState.Locked } := by
  refine ⟨?_, rfl⟩
  obtain ⟨p2, hp2, hg2⟩ :=
    process_chargeback_step p c t s bt hget hlock hnr hd hbt
  refine ⟨p2, _, hp2, hg2, ?_, ?_, ?_⟩
  · show (chargeback_adjust s bt).held = s.held + bt.amount
    simp only [chargeback_adjust, if_pos hneg]
  · show (chargeback_adjust s bt).available = s.available - bt.amount
    simp only [chargeback_adjust, if_pos hneg]
  · show (chargeback_adjust s bt).locked = LockedState.Locked
    simp only [chargeback_adjust, if_pos hneg]

theorem C4_chargeback_withdrawal_witness :
    (∃ p2 s2, sampleDisputedW.process (chargebackRaw 1 11) = Except.ok p2 ∧
      p2.db.get_client_state 1 = some s2 ∧
      s2.held = (1 : ℚ) + (-1) ∧
      s2.available = (0 : ℚ) - (-1) ∧
      s2.locked = LockedState.Locked) ∧
    run_client_state [depositRaw 1 10 1, withdrawalRaw 1 11 1,
        disputeRaw 1 11, chargebackRaw 1 11] 1 =
      some { client_id := 1, available := 1, held := 0, total := 1,
             locked := LockedState.Locked } :=
  C4_chargeback_withdrawal sampleDisputedW 1 11
    { client_id := 1, available := 0, held := 1, total := 1,
      locked := LockedState.Unlocked }
    { client_id := 1, txn_id := 11, amount := -1 }
    rfl rfl rfl (by decide) (by decide) (by decide)

/-- A successful dispute insert implies its backing transfer is recorded. -/
theorem try_insert_dispute_true_transfer (db : TxnDb) (c : ClientId)
    (t : TransactionId) (h : (db.try_insert_dispute c t).1 = true) :
    ∃ bt ∈ db.transfers, bt.client_id = c ∧ bt.txn_id = t := by
  unfold TxnDb.try_insert_dispute at h
  split at h
  · simp at h
  · rename_i hcond
    have h2 : (db.transfers.any
        fun bt => bt.client_id == c && bt.txn_id == t) = true := by
      by_contra hno
      rw [Bool.not_eq_true] at hno
      exact hcond (by simp [hno])
    rw [List.any_eq_true] at h2
    obtain ⟨bt, hm, hp⟩ := h2
    simp only [Bool.and_eq_true, beq_iff_eq] at hp
    exact ⟨bt, hm, hp⟩

/-- A successful resolution insert implies its dispute row exists. -/
theorem try_insert_resolution_true_dispute (db : TxnDb) (c : ClientId)
    (t : TransactionId) (st : DisputeStatus)
    (h : (db.try_insert_resolution c t st).1 = true) :
    ∃ d ∈ db.disputes, d.1 = c ∧ d.2 = t := by
  unfold TxnDb.try_insert_resolution at h
  split at h
  · simp at h
  · rename_i hcond
    have h2 : (db.disputes.any fun d => d.1 == c && d.2 == t) = true := by
      by_contra hno
      rw [Bool.not_eq_true] at hno
      exact hcond (by simp [hno])
    rw [List.any_eq_true] at h2
    obtain ⟨d, hm, hp⟩ := h2
    simp only [Bool.and_eq_true, beq_iff_eq] at hp
    exact ⟨d, hm, hp⟩

/-- With dispute rows backed by transfers, the state machine never reaches
the fatal fetch-failure branch. -/
theorem process_validated_ok (db : TxnDb) (s : ClientState) (np : Nat)
    (txn : Txn) (hb : DisputesBacked db) :
    ∃ p2, process_validated db s np txn = Except.ok p2 := by
  by_cases hl : s.is_locked = true
  · exact ⟨_, process_validated_locked db s np txn hl⟩
  · cases txn with
    | BalanceTransfer tr =>
      simp only [process_validated]
      rw [if_neg hl]
      by_cases hc : tr.amount < 0 ∧ s.available + tr.amount < 0
      · rw [if_pos hc]
        exact ⟨_, rfl⟩
      · rw [if_neg hc]
        by_cases hr : (db.try_insert_balance_transfer tr).1 = true
        · rw [if_pos hr]
          exact ⟨_, rfl⟩
        · rw [if_neg hr]
          exact ⟨_, rfl⟩
    | Dispute c0 t0 =>
      simp only [process_validated]
      rw [if_neg hl]
      by_cases hr : (db.try_insert_dispute c0 t0).1 = true
      · rw [if_pos hr]
        obtain ⟨bt, hm, hk⟩ := try_insert_dispute_true_transfer db c0 t0 hr
        have hfind : ((db.try_insert_dispute c0 t0).2.get_balance_transfer
            c0 t0).isSome := by
          unfold TxnDb.get_balance_transfer
          rw [try_insert_dispute_transfers, List.find?_isSome]
          exact ⟨bt, hm, by simp [hk.1, hk.2]⟩
        obtain ⟨bt2, hbt2⟩ := Option.isSome_iff_exists.mp hfind
        rw [hbt2]
        simp only [after_dispute_insert]
        exact ⟨_, rfl⟩
      · rw [if_neg hr]
        exact ⟨_, rfl⟩
    | Resolve c0 t0 =>
      simp only [process_validated]
      rw [if_neg hl]
      by_cases hr : (db.try_resolve_dispute c0 t0).1 = true
      · rw [if_pos hr]
        obtain ⟨d, hdm, hdk⟩ := try_insert_resolution_true_dispute db c0 t0
          DisputeStatus.Resolved hr
        obtain ⟨bt, hm, hk1, hk2⟩ := hb d hdm
        have hfind : ((db.try_resolve_dispute c0 t0).2.get_balance_transfer
            c0 t0).isSome := by
          unfold TxnDb.get_balance_transfer TxnDb.try_resolve_dispute
          rw [try_insert_resolution_transfers, List.find?_isSome]
          exact ⟨bt, hm, by simp [hk1, hk2, hdk.1, hdk.2]⟩
        obtain ⟨bt2, hbt2⟩ := Option.isSome_iff_exists.mp hfind
        rw [hbt2]
        simp only [after_resolve_insert]
        exact ⟨_, rfl⟩
      · rw [if_neg hr]
        exact ⟨_, rfl⟩
    | Chargeback c0 t0 =>
      simp only [process_validated]
      rw [if_neg hl]
      by_cases hr : (db.try_chargeback_dispute c0 t0).1 = true
      · rw [if_pos hr]
        obtain ⟨d, hdm, hdk⟩ := try_insert_resolution_true_dispute db c0 t0
          DisputeStatus.Chargeback hr
        obtain ⟨bt, hm, hk1, hk2⟩ := hb d hdm
        have hfind : ((db.try_chargeback_dispute c0 t0).2.get_balance_transfer
            c0 t0).isSome := by
          unfold TxnDb.get_balance_transfer TxnDb.try_chargeback_dispute
          rw [try_insert_resolution_transfers, List.find?_isSome]
          exact ⟨bt, hm, by simp [hk1, hk2, hdk.1, hdk.2]⟩
        obtain ⟨bt2, hbt2⟩ := Option.isSome_iff_exists.mp hfind
        rw [hbt2]
        simp only [after_chargeback_insert]
        exact ⟨_, rfl⟩
      · rw [if_neg hr]
        exact ⟨_, rfl⟩

/-- With dispute rows backed by transfers, a `process` call never fails. -/
theorem process_never_fails (p : TransactionProcessor) (raw : RawTxnInput)
    (hb : DisputesBacked p.db) :
    ∃ p2, p.process raw = Except.ok p2 := by
  unfold TransactionProcessor.process
  cases hv : validate_raw_input raw with
  | none => exact ⟨p, rfl⟩
  | some txn =>
    cases hg : p.db.get_client_state raw.client_id with
    | some s =>
      simp only [hg]
      exact process_validated_ok p.db s p.num_processed txn hb
    | none =>
      simp only [hg]
      exact process_validated_ok _ _ p.num_processed txn hb

/-- Appending input after a successful prefix run continues from its
result. -/
theorem process_all_append_ok (p q : TransactionProcessor)
    (l1 l2 : List RawTxnInput) (h : p.process_all l1 = Except.ok q) :
    p.process_all (l1 ++ l2) = q.process_all l2 := by
  rw [process_all_append, h]

/-- C10: the system does not maintain non-negativity: depositing 1,
withdrawing it, disputing the deposit and charging the deposit back leaves
`available = -1 < 0` and `total = -1 < 0` with the account locked, and the
state persists unchanged no matter what further record is processed. -/
theorem C10_negative_balance_permanent :
    run_client_state negInputs 1 =
      some { client_id := 1, available := -1, held := 0, total := -1,
             locked := LockedState.Locked } ∧
    ((-1 : ℚ) < 0) ∧
    ∀ raw : RawTxnInput, run_client_state (negInputs ++ [raw]) 1 =
      some { client_id := 1, available := -1, held := 0, total := -1,
             locked := LockedState.Locked } := by
  refine ⟨rfl, by decide, ?_⟩
  intro raw
  obtain ⟨Q, hok, hg, hb⟩ : ∃ Q,
      TransactionProcessor.new.process_all negInputs = Except.ok Q ∧
      Q.db.get_client_state 1 =
        some { client_id := 1, available := -1, held := 0, total := -1,
               locked := LockedState.Locked } ∧
      DisputesBacked Q.db :=
    ⟨_, rfl, rfl, by unfold DisputesBacked; decide⟩
  obtain ⟨q2, hq2⟩ := process_never_fails Q raw hb
  have h2 : Q.process_all [raw] = Except.ok q2 := by
    simp only [TransactionProcessor.process_all, hq2]
  unfold run_client_state
  rw [(process_all_append_ok _ _ _ _ hok).trans h2]
  exact process_locked_step Q raw q2 1 _ hg (by decide) hq2
